import Mathlib

/-!
Verification of the pocketlang Native API Surface Generator
(`scripts/generate_native.py`, the robust variant of the tool).

Strings are modelled as `List Char`.  Each Python string primitive the
script uses (`str.find`, `str.rfind`, slicing with negative indices,
`str.strip`, `str.split`, membership `in`) is embedded with Python
semantics, and the two regular expressions of the script
(`^PK_PUBLIC [\S\n ]+?;` with MULTILINE, and
`PK_PUBLIC (.*?) ([a-zA-Z0-9_]+)\(`) are embedded directly as scanning
functions with the leftmost / lazy / greedy behaviour of `re`.
File writes are modelled by returning the full text of the two generated
artifacts; a failed `assert` is modelled by `Option.none`.
-/

set_option maxRecDepth 100000

namespace PocketGen

abbrev Chars := List Char

/-- Coerce a Lean string literal to the character-list representation. -/
def str (s : String) : Chars := s.data

/-- Python `\s` on ASCII text: space, tab, newline, carriage return,
vertical tab, form feed. -/
def isPySpace (c : Char) : Bool :=
  c == ' ' || c == '\t' || c == '\n' || c == '\x0d' || c == '\x0b' || c == '\x0c'

/-- Python `str.strip()`: drop leading and trailing whitespace. -/
def pyStrip (s : Chars) : Chars :=
  ((s.dropWhile isPySpace).reverse.dropWhile isPySpace).reverse

/-- First index at which `needle` occurs in the list, if any. -/
def firstIdxOf (needle : Chars) : Chars → Option Nat
  | [] => if needle.isPrefixOf ([] : Chars) then some 0 else none
  | c :: t =>
    if needle.isPrefixOf (c :: t) then some 0
    else (firstIdxOf needle t).map (· + 1)

/-- Python `haystack.find(needle)`: first index or `-1`. -/
def pyFind (s needle : Chars) : Int :=
  match firstIdxOf needle s with
  | some i => (i : Int)
  | none => -1

/-- Python `haystack.find(c)` for a one-character needle. -/
def pyFindChar (s : Chars) (c : Char) : Int := pyFind s [c]

/-- Python substring membership `needle in s`. -/
def containsSub (needle s : Chars) : Bool := (firstIdxOf needle s).isSome

/-- Last index at which the character occurs, if any. -/
def lastIdxOfChar (c : Char) : Chars → Option Nat
  | [] => none
  | a :: t =>
    match lastIdxOfChar c t with
    | some i => some (i + 1)
    | none => if a == c then some 0 else none

/-- Python `s.rfind(c)`: last index or `-1`. -/
def pyRFindChar (s : Chars) (c : Char) : Int :=
  match lastIdxOfChar c s with
  | some i => (i : Int)
  | none => -1

/-- Resolve a Python slice endpoint to an absolute position:
negative endpoints count from the end and clamp at `0`, nonnegative
endpoints clamp at `len`. -/
def pyIdx (len : Nat) (i : Int) : Nat :=
  if i < 0 then ((len : Int) + i).toNat else min i.toNat len

/-- Python `s[a:b]`. -/
def pySlice (s : Chars) (a b : Int) : Chars :=
  (s.take (pyIdx s.length b)).drop (pyIdx s.length a)

/-- Python `s[a:]`. -/
def pySliceFrom (s : Chars) (a : Int) : Chars :=
  s.drop (pyIdx s.length a)

/-! ## The header scanner (`get_source`) -/

/-- The sentinel marker searched for by `get_source`. -/
def sentinel : Chars := str "POCKETLANG PUBLIC API"

/-- `get_source` of the script, applied to the header text it reads:
`source[source.find("POCKETLANG PUBLIC API"):]`. -/
def get_source (source : Chars) : Chars :=
  pySliceFrom source (pyFind source sentinel)

/-! ## Whitespace normalization (`flaten`) -/

/-- `re.sub(r"\s+", " ", s)`: replace every maximal whitespace run by a
single space.  The flag records whether the previous character belonged
to a whitespace run. -/
def collapseWS : Bool → Chars → Chars
  | _, [] => []
  | prev, c :: t =>
    if isPySpace c then
      if prev then collapseWS true t else ' ' :: collapseWS true t
    else c :: collapseWS false t

/-- `flaten` of the script: collapse whitespace runs, then `strip`. -/
def flaten (s : Chars) : Chars := pyStrip (collapseWS false s)

/-! ## The declaration pattern `PK_PUBLIC (.*?) ([a-zA-Z0-9_]+)\(` -/

/-- The character class `[a-zA-Z0-9_]`. -/
def isWordChar (c : Char) : Bool :=
  ('a' ≤ c && c ≤ 'z') || ('A' ≤ c && c ≤ 'Z') || ('0' ≤ c && c ≤ '9') || c == '_'

/-- Match ` ([a-zA-Z0-9_]+)\(` at the head of `s`: a maximal nonempty
word-character run followed immediately by an opening parenthesis
(the greedy `+` must leave exactly the parenthesis, so no shorter run
can succeed). -/
def nameAt (s : Chars) : Option Chars :=
  let w := s.takeWhile isWordChar
  if w = [] then none
  else
    match s.dropWhile isWordChar with
    | '(' :: _ => some w
    | _ => none

/-- After the literal `PK_PUBLIC `, find the lazy group split: the least
prefix (group 1, not containing a newline, since `.` excludes it)
followed by a space and then a word run and `(` (group 2).  `acc` holds
the reversed prefix consumed so far. -/
def findGroups (acc : Chars) : Chars → Option (Chars × Chars)
  | [] => none
  | c :: rest =>
    if c == '\n' then none
    else
      if c == ' ' then
        match nameAt rest with
        | some w => some (acc.reverse, w)
        | none => findGroups (c :: acc) rest
      else findGroups (c :: acc) rest

/-- The literal `PK_PUBLIC ` (with the trailing space) of both patterns. -/
def pkPub : Chars := str "PK_PUBLIC "

/-- `re.search(r"PK_PUBLIC (.*?) ([a-zA-Z0-9_]+)\(", s)`: scan start
positions left to right; at each occurrence of the literal try the lazy
group split, falling through to the next position on failure.  Returns
`(group 1, group 2)` = (return type, function name). -/
def searchPat : Chars → Option (Chars × Chars)
  | [] => none
  | c :: t =>
    if pkPub.isPrefixOf (c :: t) then
      match findGroups [] ((c :: t).drop pkPub.length) with
      | some r => some r
      | none => searchPat t
    else searchPat t

/-! ## `parse_definition` -/

/-- One parsed API signature, as returned by `parse_definition`:
the function name, the parameters in order as `(name, type)` pairs
(the tuple order used by the script), and the return type. -/
structure Sig where
  name : Chars
  params : List (Chars × Chars)
  ret : Chars
deriving DecidableEq

/-- The literal `()` of the no-parameter test. -/
def nopar : Chars := str "()"

/-- The literal `(void)` of the no-parameter test. -/
def voidpar : Chars := str "(void)"

/-- The variadic marker `...`. -/
def varargs : Chars := str "..."

/-- One comma piece of the parameter substring, split at its last space:
`param_name = param[last_space:].strip()`,
`param_type = param[:last_space].strip()`, appended as `(name, type)`. -/
def splitPiece (p : Chars) : Chars × Chars :=
  let ls := pyRFindChar p ' '
  (pyStrip (pySliceFrom p ls), pyStrip (pySlice p 0 ls))

/-- `parse_definition` of the script.  The two `assert`s (no embedded
newline; the name/return-type pattern matches) are modelled by `none`. -/
def parse_definition (d : Chars) : Option Sig :=
  if d.contains '\n' then none
  else
    match searchPat d with
    | none => none
    | some (ret, fn) =>
      if containsSub nopar d || containsSub voidpar d then
        some ⟨fn, [], ret⟩
      else
        let ps := pySlice d (pyFindChar d '(' + 1) (pyFindChar d ')')
        some ⟨fn, (List.splitOn ',' ps).map splitPiece, ret⟩

/-- The parse applied along the code path of `get_api_functions`:
`parse_definition(flaten(m))`. -/
def parseDecl (m : Chars) : Option Sig := parse_definition (flaten m)

/-! ## The declaration finder `re.findall(r"^PK_PUBLIC [\S\n ]+?;", source, re.MULTILINE)` -/

/-- The class `[\S\n ]`: any character except tab, carriage return,
vertical tab and form feed. -/
def classChar (c : Char) : Bool := !(isPySpace c) || c == '\n' || c == ' '

/-- Match `[\S\n ]+?;` at the head of `s` (lazily: stop at the first
semicolon preceded by at least one class character).  Returns the
consumed text (semicolon included) and the remainder. -/
def scanBody : Chars → Option (Chars × Chars)
  | [] => none
  | c :: rest =>
    if classChar c then
      match rest with
      | ';' :: r2 => some ([c, ';'], r2)
      | _ =>
        match scanBody rest with
        | some (seg, r) => some (c :: seg, r)
        | none => none
    else none

/-- Scan of `re.findall` with the MULTILINE anchor: `atLS` records
whether the current position is a line start (position `0` or right
after a newline).  After a successful match scanning resumes at the
match end.  The fuel is initialised with the text length, which bounds
the number of scanning steps. -/
def findallAux : Nat → Bool → Chars → List Chars
  | 0, _, _ => []
  | _ + 1, _, [] => []
  | fuel + 1, atLS, c :: t =>
    if atLS && pkPub.isPrefixOf (c :: t) then
      match scanBody ((c :: t).drop pkPub.length) with
      | some (seg, rest) => (pkPub ++ seg) :: findallAux fuel false rest
      | none => findallAux fuel (c == '\n') t
    else findallAux fuel (c == '\n') t

/-- All matches of `^PK_PUBLIC [\S\n ]+?;` (MULTILINE) in `s`. -/
def findall (s : Chars) : List Chars := findallAux s.length true s

/-! ## `get_api_functions` (robust variant: variadic declarations skipped) -/

/-- The loop body of `get_api_functions`: flatten each match, skip it if
it contains the variadic marker, otherwise parse it; a parse failure
aborts the whole run. -/
def getApiFromDecls : List Chars → Option (List Sig)
  | [] => some []
  | m :: rest =>
    let d := flaten m
    if containsSub varargs d then getApiFromDecls rest
    else
      match parse_definition d with
      | none => none
      | some s => (getApiFromDecls rest).map (s :: ·)

/-- `get_api_functions` of the script. -/
def get_api_functions (source : Chars) : Option (List Sig) :=
  getApiFromDecls (findall (get_source source))

/-- The matched declarations whose flattened text does not contain the
variadic marker. -/
def nonVariadicDecls (source : Chars) : List Chars :=
  (findall (get_source source)).filter fun m => !(containsSub varargs (flaten m))

/-! ## Emitters -/

/-- `fn_typedefs`: one function-pointer typedef per signature, built
from the parameter types only. -/
def fn_typedefs (fns : List Sig) : Chars :=
  (fns.foldl (fun acc s =>
    acc ++ str "typedef " ++ s.ret ++ str " (*" ++ s.name ++ str "_t)("
      ++ List.intercalate (str ", ") (s.params.map Prod.snd) ++ str ");\n") [])
  ++ str "\n"

/-- `api_typedef`: the dispatch-table struct, one pointer field per
signature, in order. -/
def api_typedef (fns : List Sig) : Chars :=
  str "typedef struct \x7b\n"
  ++ (fns.foldl (fun acc s =>
        acc ++ str "  " ++ s.name ++ str "_t " ++ s.name ++ str "_ptr;\n") [])
  ++ str "\x7d PkNativeApi;\n" ++ str "\n"

/-- One forwarder emitted by `define_functions`: original signature,
one indirect call through the table, `return` suppressed for `void`. -/
def forwarder (s : Sig) : Chars :=
  s.ret ++ str " " ++ s.name ++ str "("
    ++ List.intercalate (str ", ") (s.params.map fun p => p.2 ++ str " " ++ p.1)
    ++ str ") \x7b\n"
  ++ str "  " ++ (if s.ret = str "void" then [] else str "return ")
    ++ str "pk_api." ++ s.name ++ str "_ptr("
    ++ List.intercalate (str ", ") (s.params.map Prod.fst) ++ str ");\n"
  ++ str "\x7d\n\n"

/-- `define_functions`: all forwarders, with the final newline dropped
(`definitions[:-1]`). -/
def define_functions (fns : List Sig) : Chars :=
  (fns.foldl (fun acc s => acc ++ forwarder s) []).dropLast

/-- `init_api`: the plugin-side initializer `pkInitApi`, assigning every
table field from the caller-supplied table. -/
def init_api (fns : List Sig) : Chars :=
  str "static PkNativeApi pk_api;\n\nPK_EXPORT void pkInitApi(PkNativeApi* api) \x7b"
  ++ (fns.foldl (fun acc s =>
        acc ++ str "\n  pk_api." ++ s.name ++ str "_ptr = api->" ++ s.name ++ str "_ptr;") [])
  ++ str "\n\x7d\n" ++ str "\n"

/-- `make_api`: the host-side table builder `pkMakeNativeAPI`. -/
def make_api (fns : List Sig) : Chars :=
  str "PkNativeApi pkMakeNativeAPI() \x7b\n\n  PkNativeApi api;\n\n"
  ++ (fns.foldl (fun acc s =>
        acc ++ str "  api." ++ s.name ++ str "_ptr = " ++ s.name ++ str ";\n") [])
  ++ str "\n  return api;\n\x7d\n\n"

/-- The generated-file banner `HEADER`, with the include block spliced
in for `%s`. -/
def header_banner (inc : Chars) : Chars :=
  str "/*\n *  Copyright (c) 2020-2022 Thakee Nathees\n *  Copyright (c) 2021-2022 Pocketlang Contributors\n *  Distributed Under The MIT License\n */\n"
  ++ inc
  ++ str "\n// !! THIS FILE IS GENERATED DO NOT EDIT !!\n\n"

/-- The full text written to `TARGET_EXT` (the plugin artifact
`pknative.c`). -/
def pluginArtifact (fns : List Sig) : Chars :=
  header_banner (str "\n#include <pocketlang.h>\n")
  ++ fn_typedefs fns ++ api_typedef fns ++ init_api fns ++ define_functions fns

/-- The full text written to `TARGET_IMP` (the host artifact
`nativeapi.h`). -/
def hostArtifact (fns : List Sig) : Chars :=
  header_banner (str "\n#ifndef PK_AMALGAMATED\n#include <pocketlang.h>\n#endif\n\n")
  ++ fn_typedefs fns ++ api_typedef fns
  ++ str "#define PK_API_INIT_FN_NAME \"pkInitApi\" \n"
  ++ str "#define PK_EXPORT_FN_NAME \"pkExportModule\" \n\n"
  ++ str "#define PK_CLEANUP_FN_NAME \"pkCleanupModule\" \n\n"
  ++ str "typedef void (*pkInitApiFn)(PkNativeApi*);\n"
  ++ str "typedef PkHandle* (*pkExportModuleFn)(PKVM*);\n"
  ++ str "\n"
  ++ str "#ifdef PK_DL_IMPLEMENT\n\n"
  ++ make_api fns
  ++ str "#endif // PK_DL_IMPLEMENT\n"

/-- `generate` of the script, as a function from the header text to the
two artifact texts; `none` models an aborted run (failed `assert`). -/
def generate (header : Chars) : Option (Chars × Chars) :=
  match get_api_functions header with
  | none => none
  | some fns => some (pluginArtifact fns, hostArtifact fns)

/-! ## Concrete inputs used by the theorems below -/

/-- A header without the sentinel marker anywhere. -/
def noSentinelHeader : Chars := str "// pocketlang\n#define PK_PUBLIC\n"

/-- A header with the sentinel followed by the single declaration
`PK_PUBLIC void pkSetGlobal(PKVM* vm, int val);`. -/
def setGlobalHeader : Chars :=
  str "/* POCKETLANG PUBLIC API */\nPK_PUBLIC void pkSetGlobal(PKVM* vm, int val);\n"

/-- The signature parsed from the `pkSetGlobal` declaration. -/
def setGlobalSig : Sig :=
  ⟨str "pkSetGlobal", [(str "vm", str "PKVM*"), (str "val", str "int")], str "void"⟩

/-- A header whose exported-declaration set holds the same declaration
twice. -/
def dupHeader : Chars :=
  str "POCKETLANG PUBLIC API\nPK_PUBLIC void pkFoo(int a);\nPK_PUBLIC void pkFoo(int a);\n"

/-- The signature parsed from the duplicated `pkFoo` declaration. -/
def fooSig : Sig := ⟨str "pkFoo", [(str "a", str "int")], str "void"⟩

/-! ## Claim theorems -/

/-- Claim C1: the spec requires a missing sentinel to abort the run
fatally with neither artifact written.  The code does the opposite: on
this sentinel-free header, `str.find` returns `-1`, the slice keeps only
the final character, and the run completes, producing both artifacts
(for the empty signature set).  This theorem evaluates the embedded
code at the failing input, witnessing the divergence. -/
theorem c1_missing_sentinel_still_writes_both :
    containsSub sentinel noSentinelHeader = false ∧
    generate noSentinelHeader = some (pluginArtifact [], hostArtifact []) := by
  decide

/-- Claim C2: the two generated artifacts are a function of the parsed
signature set alone, so any two runs whose headers parse to the same
signature set - in particular two runs over one fixed header text -
produce byte-identical plugin and host artifacts. -/
theorem c2_generate_deterministic (h1 h2 : Chars)
    (hs : get_api_functions h1 = get_api_functions h2) :
    generate h1 = generate h2 := by
  unfold generate
  rw [hs]

/-- Witness for C2: two headers differing by a leading comment line parse
to the same signature set, and the generated artifacts coincide. -/
theorem c2_generate_deterministic_witness :
    get_api_functions (str "POCKETLANG PUBLIC API\nPK_PUBLIC int pkGetSlot(PKVM* vm);\n") =
      get_api_functions (str "// intro\nPOCKETLANG PUBLIC API\nPK_PUBLIC int pkGetSlot(PKVM* vm);\n") ∧
    generate (str "POCKETLANG PUBLIC API\nPK_PUBLIC int pkGetSlot(PKVM* vm);\n") =
      generate (str "// intro\nPOCKETLANG PUBLIC API\nPK_PUBLIC int pkGetSlot(PKVM* vm);\n") :=
  ⟨by decide, c2_generate_deterministic _ _ (by decide)⟩

/-- Claim C3: for the single declaration
`PK_PUBLIC void pkSetGlobal(PKVM* vm, int val);` after the sentinel the
generator emits exactly the stated typedef, struct field, forwarder
(without `return`, since the return type is `void`) and initializer
assignment. -/
theorem c3_pkSetGlobal_emission :
    get_api_functions setGlobalHeader = some [setGlobalSig] ∧
    fn_typedefs [setGlobalSig] = str "typedef void (*pkSetGlobal_t)(PKVM*, int);\n\n" ∧
    api_typedef [setGlobalSig] =
      str "typedef struct \x7b\n  pkSetGlobal_t pkSetGlobal_ptr;\n\x7d PkNativeApi;\n\n" ∧
    define_functions [setGlobalSig] =
      str "void pkSetGlobal(PKVM* vm, int val) \x7b\n  pk_api.pkSetGlobal_ptr(vm, val);\n\x7d\n" ∧
    init_api [setGlobalSig] =
      str "static PkNativeApi pk_api;\n\nPK_EXPORT void pkInitApi(PkNativeApi* api) \x7b\n  pk_api.pkSetGlobal_ptr = api->pkSetGlobal_ptr;\n\x7d\n\n" := by
  decide

/-- Claim C5 counterexample: a header with two identically named
declarations is not rejected - the run succeeds and carries both copies
into the signature set. -/
theorem c5_duplicate_names_not_rejected :
    get_api_functions dupHeader = some [fooSig, fooSig] ∧
    generate dupHeader ≠ none := by
  decide

/-- Claim C5 amended: duplicate function names are silently carried into
the signature set and the generated table: the emitted struct and the
typedef block repeat the duplicated field and alias. -/
theorem c5_duplicates_carried_into_table :
    get_api_functions dupHeader = some [fooSig, fooSig] ∧
    api_typedef [fooSig, fooSig] =
      str "typedef struct \x7b\n  pkFoo_t pkFoo_ptr;\n  pkFoo_t pkFoo_ptr;\n\x7d PkNativeApi;\n\n" ∧
    fn_typedefs [fooSig, fooSig] =
      str "typedef void (*pkFoo_t)(int);\ntypedef void (*pkFoo_t)(int);\n\n" := by
  decide

/-- Claim C8: the parser first flattens the matched statement (every
whitespace run, newlines included, collapsed to one space), so two
declarations with the same collapsed text parse to the same structured
signature. -/
theorem c8_whitespace_insensitive (m1 m2 : Chars)
    (hc : collapseWS false m1 = collapseWS false m2) :
    parseDecl m1 = parseDecl m2 := by
  unfold parseDecl flaten
  rw [hc]

/-- Witness for C8: a declaration broken over two lines and its
one-line form collapse identically and parse to the same signature. -/
theorem c8_whitespace_insensitive_witness :
    parseDecl (str "PK_PUBLIC void\n  pkFree(PKVM* vm);") =
      parseDecl (str "PK_PUBLIC void pkFree(PKVM* vm);") ∧
    parseDecl (str "PK_PUBLIC void\n  pkFree(PKVM* vm);") =
      some ⟨str "pkFree", [(str "vm", str "PKVM*")], str "void"⟩ :=
  ⟨c8_whitespace_insensitive _ _ (by decide), by decide⟩

/-! ## Helper lemmas -/

theorem isPrefixOf_append_self (l t : Chars) : l.isPrefixOf (l ++ t) = true := by
  induction l with
  | nil => simp
  | cons a l ih => simp [List.isPrefixOf_cons₂, ih]

theorem firstIdxOf_of_isPrefixOf (needle hay : Chars)
    (h : needle.isPrefixOf hay = true) : firstIdxOf needle hay = some 0 := by
  cases hay <;> simp [firstIdxOf, h]

/-- A list that literally contains the needle as a middle segment passes
the Python substring test. -/
theorem containsSub_mid (needle pre post : Chars) :
    containsSub needle (pre ++ (needle ++ post)) = true := by
  induction pre with
  | nil =>
    rw [List.nil_append, containsSub,
      firstIdxOf_of_isPrefixOf _ _ (isPrefixOf_append_self needle post)]
    rfl
  | cons c pre ih =>
    rw [containsSub] at ih ⊢
    simp only [List.cons_append, firstIdxOf]
    cases hp : needle.isPrefixOf (c :: (pre ++ (needle ++ post))) with
    | true => simp [hp]
    | false => simp [hp, Option.isSome_map, ih]

theorem isPrefixOf_two_singleton (a b : Char) (l : Chars) (c : Char) :
    List.isPrefixOf (a :: b :: l) [c] = false := by
  simp [List.isPrefixOf]

/-- No match of the declaration pattern fits in a text of length at most
one. -/
theorem findall_short (s : Chars) (hs : s.length ≤ 1) : findall s = [] := by
  match s with
  | [] => rfl
  | [c] =>
    show findallAux 1 true [c] = []
    have hpk : pkPub = 'P' :: 'K' :: str "_PUBLIC " := rfl
    unfold findallAux
    rw [hpk]
    simp [isPrefixOf_two_singleton, findallAux]
  | a :: b :: t => simp at hs

/-- Shared core of the no-parameter branch: when the flattened
declaration passes the substring test for `()` or `(void)`, the parse
returns an empty parameter list. -/
theorem parse_empty_params_of_contains (d ret fn : Chars)
    (hnl : d.contains '\n' = false)
    (hm : searchPat d = some (ret, fn))
    (hc : containsSub nopar d = true ∨ containsSub voidpar d = true) :
    parse_definition d = some ⟨fn, [], ret⟩ := by
  unfold parse_definition
  simp only [hnl, Bool.false_eq_true, if_false, hm]
  rcases hc with hc | hc <;> simp [hc]

/-- The robust variant drops exactly the variadic declarations. -/
theorem getApi_filter_variadic (ds : List Chars) :
    getApiFromDecls ds =
      getApiFromDecls (ds.filter fun m => !(containsSub varargs (flaten m))) := by
  induction ds with
  | nil => rfl
  | cons m rest ih =>
    by_cases hv : containsSub varargs (flaten m) = true
    · simp [getApiFromDecls, hv, List.filter_cons, ih]
    · have hv2 : containsSub varargs (flaten m) = false := by
        simpa using hv
      cases hp : parse_definition (flaten m) <;>
        simp [getApiFromDecls, hv2, hp, List.filter_cons, ih]

/-! ## Claim theorems (continued) -/

/-- Claim C4: in the robust variant every matched declaration whose
flattened text contains the variadic marker is excluded from the
signature set - the set (and hence every artifact, each a function of
the set alone) is exactly the one computed from the non-variadic
declarations, and the exclusion never aborts the run. -/
theorem c4_variadic_excluded (source : Chars) :
    get_api_functions source = getApiFromDecls (nonVariadicDecls source) ∧
    generate source =
      Option.map (fun fns => (pluginArtifact fns, hostArtifact fns))
        (getApiFromDecls (nonVariadicDecls source)) := by
  have h := getApi_filter_variadic (findall (get_source source))
  refine ⟨h, ?_⟩
  unfold generate get_api_functions
  rw [show getApiFromDecls (findall (get_source source))
        = getApiFromDecls (nonVariadicDecls source) from h]
  cases getApiFromDecls (nonVariadicDecls source) <;> rfl

/-- Witness for C4: with a variadic `sum` declaration between the
sentinel and a normal declaration, the signature set keeps only the
normal one and the run succeeds. -/
theorem c4_variadic_excluded_witness :
    (get_api_functions (str "POCKETLANG PUBLIC API\nPK_PUBLIC int sum(int a, int b, ...);\nPK_PUBLIC void pkRelease(PKVM* vm);\n") =
       getApiFromDecls (nonVariadicDecls (str "POCKETLANG PUBLIC API\nPK_PUBLIC int sum(int a, int b, ...);\nPK_PUBLIC void pkRelease(PKVM* vm);\n")) ∧
     generate (str "POCKETLANG PUBLIC API\nPK_PUBLIC int sum(int a, int b, ...);\nPK_PUBLIC void pkRelease(PKVM* vm);\n") =
       Option.map (fun fns => (pluginArtifact fns, hostArtifact fns))
         (getApiFromDecls (nonVariadicDecls (str "POCKETLANG PUBLIC API\nPK_PUBLIC int sum(int a, int b, ...);\nPK_PUBLIC void pkRelease(PKVM* vm);\n")))) ∧
    get_api_functions (str "POCKETLANG PUBLIC API\nPK_PUBLIC int sum(int a, int b, ...);\nPK_PUBLIC void pkRelease(PKVM* vm);\n") =
      some [⟨str "pkRelease", [(str "vm", str "PKVM*")], str "void"⟩] ∧
    nonVariadicDecls (str "POCKETLANG PUBLIC API\nPK_PUBLIC int sum(int a, int b, ...);\nPK_PUBLIC void pkRelease(PKVM* vm);\n") =
      [str "PK_PUBLIC void pkRelease(PKVM* vm);"] :=
  ⟨c4_variadic_excluded _, by decide, by decide⟩

/-- Claim C7: a declaration whose parameter list is written `()` or
`(void)` (with the first opening parenthesis starting the list) parses
to an empty parameter sequence, not a single void placeholder. -/
theorem c7_empty_or_void_list (d pre post ret fn : Chars)
    (_hpre : pre.all (fun c => !(c == '(') && !(c == ')')) = true)
    (hform : d = pre ++ (nopar ++ post) ∨ d = pre ++ (voidpar ++ post))
    (hnl : d.contains '\n' = false)
    (hm : searchPat d = some (ret, fn)) :
    parse_definition d = some ⟨fn, [], ret⟩ := by
  apply parse_empty_params_of_contains d ret fn hnl hm
  rcases hform with hf | hf
  · exact Or.inl (by rw [hf]; exact containsSub_mid _ _ _)
  · exact Or.inr (by rw [hf]; exact containsSub_mid _ _ _)

/-- Witness for C7: both spellings of an empty parameter list yield an
empty parameter sequence. -/
theorem c7_empty_or_void_list_witness :
    parse_definition (str "PK_PUBLIC void pkCleanup();") =
      some ⟨str "pkCleanup", [], str "void"⟩ ∧
    parse_definition (str "PK_PUBLIC void pkStop(void);") =
      some ⟨str "pkStop", [], str "void"⟩ :=
  ⟨c7_empty_or_void_list (str "PK_PUBLIC void pkCleanup();")
      (str "PK_PUBLIC void pkCleanup") (str ";") (str "void") (str "pkCleanup")
      (by decide) (Or.inl (by decide)) (by decide) (by decide),
   by decide⟩

/-- Claim C10: the no-parameter test is a substring check over the whole
flattened declaration: whenever `()` or `(void)` occurs anywhere in it,
the parse returns an empty parameter sequence, regardless of the text
between the first parentheses. -/
theorem c10_substring_check_forces_empty (d ret fn : Chars)
    (hnl : d.contains '\n' = false)
    (hm : searchPat d = some (ret, fn))
    (hc : containsSub nopar d = true ∨ containsSub voidpar d = true) :
    parse_definition d = some ⟨fn, [], ret⟩ :=
  parse_empty_params_of_contains d ret fn hnl hm hc

/-- Witness for C10: a function-pointer parameter list containing
`(void)` inside a parameter type is parsed as empty even though the text
between the first parentheses is a nonempty, non-void parameter text. -/
theorem c10_substring_check_forces_empty_witness :
    parse_definition (str "PK_PUBLIC void pkFoo(void (*cb)(void));") =
      some ⟨str "pkFoo", [], str "void"⟩ ∧
    pySlice (str "PK_PUBLIC void pkFoo(void (*cb)(void));")
        (pyFindChar (str "PK_PUBLIC void pkFoo(void (*cb)(void));") '(' + 1)
        (pyFindChar (str "PK_PUBLIC void pkFoo(void (*cb)(void));") ')') =
      str "void (*cb" :=
  ⟨c10_substring_check_forces_empty _ _ _ (by decide) (by decide) (Or.inr (by decide)),
   by decide⟩

/-- Claim C9: when the sentinel does not occur in the header, `find`
returns `-1`, the slice keeps only the final character, and the run
still completes, producing both artifacts for the (necessarily empty)
signature set. -/
theorem c9_missing_sentinel_run_continues (h : Chars)
    (hs : containsSub sentinel h = false) :
    pyFind h sentinel = -1 ∧
    get_source h = h.drop (h.length - 1) ∧
    generate h = some (pluginArtifact [], hostArtifact []) := by
  have hnone : firstIdxOf sentinel h = none := by
    cases hi : firstIdxOf sentinel h with
    | none => rfl
    | some i => rw [containsSub, hi] at hs; simp at hs
  have hfind : pyFind h sentinel = -1 := by rw [pyFind, hnone]
  have hidx : pyIdx h.length (-1) = h.length - 1 := by
    unfold pyIdx
    simp only [if_pos (by norm_num : (-1 : Int) < 0)]
    omega
  have hsrc : get_source h = h.drop (h.length - 1) := by
    rw [get_source, hfind, pySliceFrom, hidx]
  refine ⟨hfind, hsrc, ?_⟩
  have hlen : (get_source h).length ≤ 1 := by
    rw [hsrc, List.length_drop]
    omega
  unfold generate get_api_functions
  rw [findall_short _ hlen]
  rfl

/-- Witness for C9: a concrete sentinel-free header still yields both
artifacts. -/
theorem c9_missing_sentinel_run_continues_witness :
    containsSub sentinel (str "hello world\n") = false ∧
    (pyFind (str "hello world\n") sentinel = -1 ∧
     get_source (str "hello world\n") =
       (str "hello world\n").drop ((str "hello world\n").length - 1) ∧
     generate (str "hello world\n") = some (pluginArtifact [], hostArtifact [])) :=
  ⟨by decide, c9_missing_sentinel_run_continues _ (by decide)⟩

/-! ## Specification-side parameter extraction (for the refinement claim C6)

These definitions follow the words of the specification, not the code:
"Extract the parameter substring between the first opening parenthesis
and the matching closing parenthesis", then "split on the comma; for
each piece, split at its last space into (type, name)". -/

/-- Content up to the closing parenthesis matching at nesting `depth`. -/
def matchClose : Nat → Chars → Option Chars
  | _, [] => none
  | depth, c :: t =>
    if c = ')' then
      if depth = 0 then some [] else (matchClose (depth - 1) t).map (c :: ·)
    else if c = '(' then (matchClose (depth + 1) t).map (c :: ·)
    else (matchClose depth t).map (c :: ·)

/-- The substring between the first opening parenthesis and the closing
parenthesis matching it. -/
def specParamRegion (d : Chars) : Option Chars :=
  match firstIdxOf ['('] d with
  | none => none
  | some i => matchClose 0 (d.drop (i + 1))

/-- Split one piece at its last space into `(type, name)`, both sides
stripped; the fallback (no space in the piece) is never exercised under
the well-formedness hypotheses. -/
def specSplitPiece (p : Chars) : Chars × Chars :=
  match lastIdxOfChar ' ' p with
  | some i => (pyStrip (p.take i), pyStrip (p.drop (i + 1)))
  | none => (pyStrip p, [])

/-- The parameter list per the specification: split the region on
commas, each piece at its last space into `(type, name)`. -/
def specParams (ps : Chars) : List (Chars × Chars) :=
  (List.splitOn ',' ps).map specSplitPiece

/-! ## Helper lemmas for C6 -/

theorem firstIdxOf_single (c : Char) (l r : Chars)
    (hl : ∀ a ∈ l, (a == c) = false) :
    firstIdxOf [c] (l ++ c :: r) = some l.length := by
  induction l with
  | nil =>
    rw [List.nil_append]
    exact firstIdxOf_of_isPrefixOf _ _ (by simp [List.isPrefixOf_cons₂])
  | cons a l ih =>
    have hca : (c == a) = false := by
      have h := hl a (List.mem_cons_self a l)
      rw [beq_eq_false_iff_ne] at h ⊢
      exact fun hh => h hh.symm
    rw [List.cons_append]
    simp only [firstIdxOf, List.isPrefixOf_cons₂, hca, Bool.false_and,
      Bool.false_eq_true, if_false,
      ih (fun b hb => hl b (List.mem_cons_of_mem _ hb)), Option.map_some']
    simp

theorem matchClose_no_parens (mid post : Chars)
    (hmid : ∀ a ∈ mid, (a == '(') = false ∧ (a == ')') = false) :
    matchClose 0 (mid ++ ')' :: post) = some mid := by
  induction mid with
  | nil => simp [matchClose]
  | cons a mid ih =>
    have h1 : a ≠ '(' := by
      rw [← beq_eq_false_iff_ne]
      exact (hmid a (List.mem_cons_self a mid)).1
    have h2 : a ≠ ')' := by
      rw [← beq_eq_false_iff_ne]
      exact (hmid a (List.mem_cons_self a mid)).2
    rw [List.cons_append]
    simp [matchClose, h1, h2, ih (fun b hb => hmid b (List.mem_cons_of_mem _ hb))]

theorem lastIdxOfChar_of_mem (c : Char) (p : Chars) (hp : c ∈ p) :
    ∃ i, lastIdxOfChar c p = some i := by
  induction p with
  | nil => cases hp
  | cons a t ih =>
    cases hl : lastIdxOfChar c t with
    | some j => exact ⟨j + 1, by simp [lastIdxOfChar, hl]⟩
    | none =>
      have hac : a = c := by
        rcases List.mem_cons.mp hp with h | h
        · exact h.symm
        · obtain ⟨j, hj⟩ := ih h
          rw [hj] at hl
          cases hl
      exact ⟨0, by simp [lastIdxOfChar, hl, hac]⟩

theorem lastIdxOfChar_drop (c : Char) (p : Chars) (i : Nat)
    (h : lastIdxOfChar c p = some i) :
    i < p.length ∧ p.drop i = c :: p.drop (i + 1) := by
  induction p generalizing i with
  | nil => cases h
  | cons a t ih =>
    rw [lastIdxOfChar] at h
    cases hl : lastIdxOfChar c t with
    | some j =>
      rw [hl] at h
      have hi : i = j + 1 := (Option.some.inj h).symm
      subst hi
      obtain ⟨hlt, hdrop⟩ := ih j hl
      refine ⟨by simp; omega, ?_⟩
      rw [List.drop_succ_cons, List.drop_succ_cons, hdrop]
    | none =>
      rw [hl] at h
      by_cases hac : (a == c) = true
      · rw [if_pos hac] at h
        have hi : i = 0 := (Option.some.inj h).symm
        subst hi
        have : a = c := by rwa [beq_iff_eq] at hac
        subst this
        exact ⟨by simp, by simp⟩
      · rw [if_neg hac] at h
        cases h

theorem pyStrip_cons_space (l : Chars) : pyStrip (' ' :: l) = pyStrip l := by
  simp [pyStrip, List.dropWhile_cons, isPySpace]

theorem pyIdx_coe (len n : Nat) (h : n ≤ len) : pyIdx len (n : Int) = n := by
  unfold pyIdx
  rw [if_neg (by omega)]
  omega

/-- The code splits a comma piece as the specification describes,
whenever the piece has a space: the part after the last space (stripped)
is the name, the part before it (stripped) is the type. -/
theorem splitPiece_spec (p : Chars) (hp : ' ' ∈ p) :
    splitPiece p = ((specSplitPiece p).2, (specSplitPiece p).1) := by
  obtain ⟨i, hi⟩ := lastIdxOfChar_of_mem ' ' p hp
  obtain ⟨hlt, hdrop⟩ := lastIdxOfChar_drop ' ' p i hi
  rw [splitPiece, pyRFindChar, hi]
  simp only [specSplitPiece, hi]
  rw [pySliceFrom, pySlice, pyIdx_coe _ _ (le_of_lt hlt)]
  have h0 : pyIdx p.length 0 = 0 := by
    unfold pyIdx
    rw [if_neg (by omega)]
    omega
  rw [h0, List.drop_zero, hdrop, pyStrip_cons_space]

/-! ## Claim C6 -/

/-- Claim C6: on a well-formed flattened declaration whose single
parenthesis group is nonempty and not `void` (and whose comma pieces
each carry a space), the parser extracts exactly the substring between
the first opening parenthesis and its matching closing parenthesis,
splits it on commas, and splits each piece at its last space into
(type, name) - as witnessed against the specification-side definitions
`specParamRegion` and `specParams`. -/
theorem c6_params_split_as_specified
    (d pre mid post ret fn : Chars)
    (hd : d = pre ++ '(' :: (mid ++ ')' :: post))
    (hpre : ∀ a ∈ pre, (a == '(') = false ∧ (a == ')') = false)
    (hmid : ∀ a ∈ mid, (a == '(') = false ∧ (a == ')') = false)
    (hnl : d.contains '\n' = false)
    (hm : searchPat d = some (ret, fn))
    (h1 : containsSub nopar d = false)
    (h2 : containsSub voidpar d = false)
    (hsp : ∀ p ∈ List.splitOn ',' mid, ' ' ∈ p) :
    specParamRegion d = some mid ∧
    parse_definition d =
      some ⟨fn, (specParams mid).map (fun q => (q.2, q.1)), ret⟩ := by
  subst hd
  have hfo : firstIdxOf ['('] (pre ++ '(' :: (mid ++ ')' :: post)) = some pre.length :=
    firstIdxOf_single '(' pre _ (fun a ha => (hpre a ha).1)
  have hassoc : pre ++ '(' :: (mid ++ ')' :: post) = (pre ++ '(' :: mid) ++ ')' :: post := by
    simp
  have hfc : firstIdxOf [')'] (pre ++ '(' :: (mid ++ ')' :: post))
      = some (pre.length + 1 + mid.length) := by
    rw [hassoc]
    have hall : ∀ a ∈ pre ++ '(' :: mid, (a == ')') = false := by
      intro a ha
      rcases List.mem_append.mp ha with ha | ha
      · exact (hpre a ha).2
      · rcases List.mem_cons.mp ha with ha | ha
        · subst ha; decide
        · exact (hmid a ha).2
    have h := firstIdxOf_single ')' (pre ++ '(' :: mid) post hall
    rw [h]
    congr 1
    simp
    omega
  have hdrop1 : (pre ++ '(' :: (mid ++ ')' :: post)).drop (pre.length + 1)
      = mid ++ ')' :: post := by
    have he : pre ++ '(' :: (mid ++ ')' :: post)
        = (pre ++ ['(']) ++ (mid ++ ')' :: post) := by simp
    rw [he]
    exact List.drop_left' (by simp)
  have hregion : specParamRegion (pre ++ '(' :: (mid ++ ')' :: post)) = some mid := by
    rw [specParamRegion, hfo]
    show matchClose 0 ((pre ++ '(' :: (mid ++ ')' :: post)).drop (pre.length + 1)) = some mid
    rw [hdrop1]
    exact matchClose_no_parens mid post hmid
  refine ⟨hregion, ?_⟩
  have hlen : (pre ++ '(' :: (mid ++ ')' :: post)).length
      = pre.length + 1 + mid.length + 1 + post.length := by
    simp
    omega
  have hps : pySlice (pre ++ '(' :: (mid ++ ')' :: post))
      (pyFindChar (pre ++ '(' :: (mid ++ ')' :: post)) '(' + 1)
      (pyFindChar (pre ++ '(' :: (mid ++ ')' :: post)) ')') = mid := by
    rw [pyFindChar, pyFindChar, pyFind, pyFind, hfo, hfc]
    have hcast : ((pre.length : Int) + 1) = ((pre.length + 1 : Nat) : Int) := by
      push_cast
      ring
    rw [hcast, pySlice, pyIdx_coe _ _ (by rw [hlen]; omega),
      pyIdx_coe _ _ (by rw [hlen]; omega)]
    have htake : (pre ++ '(' :: (mid ++ ')' :: post)).take (pre.length + 1 + mid.length)
        = pre ++ '(' :: mid := by
      rw [hassoc]
      exact List.take_left' (by simp; omega)
    rw [htake]
    have he2 : pre ++ '(' :: mid = (pre ++ ['(']) ++ mid := by simp
    rw [he2]
    exact List.drop_left' (by simp)
  have hmap : (List.splitOn ',' mid).map splitPiece
      = (specParams mid).map (fun q => (q.2, q.1)) := by
    rw [specParams, List.map_map]
    apply List.map_congr_left
    intro p hp
    rw [splitPiece_spec p (hsp p hp)]
    rfl
  unfold parse_definition
  simp only [hnl, Bool.false_eq_true, if_false, hm, h1, h2, Bool.or_self]
  rw [hps, hmap]

/-- Witness for C6: the declaration
`PK_PUBLIC PkResult pkRunString(PKVM* vm, const char* source);` has its
parameter region extracted between the matching parentheses and split at
last spaces, giving the pointer declarator written adjacent to the type:
type `PKVM*` with name `vm`, and type `const char*` with name `source`. -/
theorem c6_params_split_as_specified_witness :
    (specParamRegion (str "PK_PUBLIC PkResult pkRunString(PKVM* vm, const char* source);") =
       some (str "PKVM* vm, const char* source") ∧
     parse_definition (str "PK_PUBLIC PkResult pkRunString(PKVM* vm, const char* source);") =
       some ⟨str "pkRunString",
         (specParams (str "PKVM* vm, const char* source")).map (fun q => (q.2, q.1)),
         str "PkResult"⟩) ∧
    (specParams (str "PKVM* vm, const char* source")).map (fun q => (q.2, q.1)) =
      [(str "vm", str "PKVM*"), (str "source", str "const char*")] :=
  ⟨c6_params_split_as_specified
      (str "PK_PUBLIC PkResult pkRunString(PKVM* vm, const char* source);")
      (str "PK_PUBLIC PkResult pkRunString") (str "PKVM* vm, const char* source")
      (str ";") (str "PkResult") (str "pkRunString")
      (by decide) (by decide) (by decide) (by decide) (by decide) (by decide)
      (by decide) (by decide),
   by decide⟩

end PocketGen
